import Mathlib

/-!
Verification development for the Office-Word-MCP-Server storage, lifecycle
and JSON-RPC dispatch layers.

The embedding models:
* byte contents of documents as opaque byte lists (the spec declares the
  document engine's file format out of scope: the core only needs
  "open path succeeds/fails" and "saved bytes exist at path afterward");
* the filesystem as a finite map from paths (component lists) to byte
  contents plus a set of known directories;
* the S3 service as a finite map from keys to byte contents with the
  documented AWS semantics (head/download report a 404 for a missing key,
  upload always stores, delete succeeds whether or not the key exists);
* Python exceptions as `Except` values: `PyErr.fileNotFound` corresponds to
  `FileNotFoundError`, `PyErr.other` to every other exception;
* JSON values as an inductive `JVal`; JSON-RPC envelopes are the literal
  key-value objects the Python code builds.

Paths are lists of components.  `os.path.join(dir, name)` is modelled as
appending one component: every call site in the server joins a directory
with either the output of `os.path.basename` (which contains no separator)
or a caller-supplied plain name, so the single-component join is faithful
for the inputs that reach it; theorems about caller-supplied names carry a
`plainName` hypothesis making this explicit.
-/

namespace WordMcp

/-- Document contents: opaque byte sequences. -/
abbrev Bytes := List Nat

/-- Filesystem paths as lists of components. -/
abbrev Path := List String

/-- Association-list lookup (first binding wins). -/
def lk {κ α : Type} [BEq κ] : List (κ × α) → κ → Option α
  | [], _ => none
  | (k, v) :: rest, key => if k == key then some v else lk rest key

/-- Association-list update: bind `key` to `v`, dropping older bindings. -/
def st {κ α : Type} [BEq κ] (m : List (κ × α)) (key : κ) (v : α) : List (κ × α) :=
  (key, v) :: m.filter (fun p => !(p.1 == key))

/-- Association-list removal of every binding for `key`. -/
def rm {κ α : Type} [BEq κ] (m : List (κ × α)) (key : κ) : List (κ × α) :=
  m.filter (fun p => !(p.1 == key))

/-- A filesystem: files with contents, plus the set of known directories. -/
structure FS where
  files : List (Path × Bytes)
  dirs : List Path
  deriving DecidableEq

/-- Contents of the file at `p`, when a file is there. -/
def FS.fileContents (fs : FS) (p : Path) : Option Bytes := lk fs.files p

/-- Is there a file at `p`? -/
def FS.isFile (fs : FS) (p : Path) : Bool := (fs.fileContents p).isSome

/-- Is there a directory at `p`? -/
def FS.isDir (fs : FS) (p : Path) : Bool := fs.dirs.contains p

/-- Models `os.path.exists`: a file or a directory is at `p`. -/
def fsExists (fs : FS) (p : Path) : Bool := fs.isFile p || fs.isDir p

/-- Write (create or overwrite) the file at `p`. -/
def FS.write (fs : FS) (p : Path) (b : Bytes) : FS :=
  { fs with files := st fs.files p b }

/-- Models `os.remove` on a plain file. -/
def FS.removeFile (fs : FS) (p : Path) : FS :=
  { fs with files := rm fs.files p }

/-- Models `os.makedirs(d, exist_ok=True)`: record `d` as a directory. -/
def FS.makedirs (fs : FS) (d : Path) : FS :=
  { fs with dirs := d :: fs.dirs }

/-- Models `shutil.rmtree(d)`: drop `d`, every directory below it and every file
below it. -/
def FS.rmtree (fs : FS) (d : Path) : FS :=
  { files := fs.files.filter (fun q => !(d.isPrefixOf q.1)),
    dirs := fs.dirs.filter (fun q => !(d.isPrefixOf q)) }

/-- The whole mutable state: the S3 object store and the filesystem. -/
structure World where
  s3store : List (String × Bytes)
  fs : FS
  deriving DecidableEq

/-- Models `os.path.basename`: everything after the last slash. -/
def pythonBasename (s : String) : String :=
  String.mk ((s.toList.reverse.takeWhile (fun c => !(c == '/'))).reverse)

/-- Does the string contain no path separator? -/
def noSlash (s : String) : Bool := s.toList.all (fun c => !(c == '/'))

/-- Split a character list on the path separator (as Python's
`str.split('/')` does: no collapsing of empty pieces). -/
def splitSlash : List Char → List (List Char)
  | [] => [[]]
  | c :: rest =>
    match splitSlash rest with
    | [] => [[c]]
    | h :: t => if c == '/' then [] :: h :: t else (c :: h) :: t

/-- Parse a path string into nonempty components. -/
def stringToPath (s : String) : Path :=
  ((splitSlash s.toList).map (fun cs => String.mk cs)).filter (fun c => !(c == ""))

/-- Render a path as an absolute slash-separated string. -/
def pathToString (p : Path) : String := p.foldl (fun acc c => acc ++ "/" ++ c) ""

/-- Models `os.path.join(dir, name)` for the separator-free names that reach the
server's join sites (see the module comment). -/
def osJoin (d : Path) (name : String) : Path := d ++ [name]

/-- Models `os.path.dirname`. -/
def parentDir (p : Path) : Path := p.dropLast

/-- The last component of a path (what `os.path.basename` yields on the
rendered path). -/
def lastComp (p : Path) : String := p.getLastD ""

/-- Path normalization: resolve `.`, `..` and empty components, the way the
operating system resolves the rendered path. -/
def normAux : Path → Path → Path
  | acc, [] => acc.reverse
  | acc, c :: rest =>
    if c = "" ∨ c = "." then normAux acc rest
    else if c = ".." then normAux (acc.drop 1) rest
    else normAux (c :: acc) rest

/-- Normalize a path (see `normAux`). -/
def normalize (p : Path) : Path := normAux [] p

/-- A component that names an ordinary directory entry. -/
def cleanComp (c : String) : Bool := !(c == "") && !(c == ".") && !(c == "..")

/-- A plain document name: no separator, not a special component. -/
def plainName (s : String) : Bool := noSlash s && cleanComp s

/-- Is `s` a contiguous suffix of `l`? -/
def listIsSuffix {α : Type} [BEq α] (s l : List α) : Bool :=
  s.reverse.isPrefixOf l.reverse

/-- Is `s` a contiguous infix of `l` (Python's `in` on strings)? -/
def listIsInfix {α : Type} [BEq α] (s l : List α) : Bool :=
  (List.range (l.length + 1)).any (fun i => s.isPrefixOf (l.drop i))

/-! ## Storage adapter (`storage_adapter.py`) -/

/-- The `storage_type` tag after initialization. -/
inductive StorageType
  | s3
  | disk
  | local
  deriving DecidableEq

/-- The Python exceptions the server distinguishes: `FileNotFoundError`
versus everything else. -/
inductive PyErr
  | fileNotFound (msg : String)
  | other (msg : String)
  deriving DecidableEq

/-- Message carried by an exception. -/
def pyErrMsg : PyErr → String
  | .fileNotFound m => m
  | .other m => m

/-- The `StorageAdapter` instance state after `__init__`. -/
structure StorageAdapter where
  storage_type : StorageType
  base_url : String
  s3_bucket : String
  disk_path : Path
  local_path : Path
  deriving DecidableEq

/-- The environment read once at startup by `StorageAdapter.__init__`:
`STORAGE_TYPE`, `BASE_URL`, the S3 credentials, `DISK_PATH`,
`DOCUMENTS_DIR`, plus the two environmental outcomes the code reacts to
(the `head_bucket` reachability probe and the `os.makedirs` permission
check on the mount point). -/
structure Config where
  storage_type_env : Option String
  base_url : String
  s3_bucket : Option String
  s3_access_key : Option String
  s3_secret_key : Option String
  s3_reachable : Bool
  disk_path : Path
  disk_writable : Bool
  local_path : Path
  deriving DecidableEq

/-- ASCII lowercasing of one character. -/
def charLower (c : Char) : Char :=
  if 65 ≤ c.toNat ∧ c.toNat ≤ 90 then Char.ofNat (c.toNat + 32) else c

/-- Models `str.lower` (ASCII, as the configuration tags need). -/
def strToLower (s : String) : String := String.mk (s.toList.map charLower)

/-- Models `_init_s3`'s credential check: `all([bucket, access_key, secret_key])`. -/
def s3CredsPresent (c : Config) : Bool :=
  c.s3_bucket.isSome && c.s3_access_key.isSome && c.s3_secret_key.isSome

/-- Models `_init_local`: always succeeds, the terminal fallback. -/
def mkLocalAdapter (c : Config) : StorageAdapter :=
  { storage_type := .local, base_url := c.base_url, s3_bucket := c.s3_bucket.getD "",
    disk_path := c.disk_path, local_path := c.local_path }

/-- Models `StorageAdapter.__init__`: dispatch on `STORAGE_TYPE` (default
`disk`); `_init_s3` falls back to `_init_local` on missing credentials or a
failed reachability probe; `_init_disk` falls back to `_init_local` on a
permission error; `_init_local` never fails. -/
def init_adapter (c : Config) : StorageAdapter :=
  let st0 := strToLower (c.storage_type_env.getD "disk")
  if st0 = "s3" then
    if s3CredsPresent c then
      if c.s3_reachable then
        { storage_type := .s3, base_url := c.base_url, s3_bucket := c.s3_bucket.getD "",
          disk_path := c.disk_path, local_path := c.local_path }
      else mkLocalAdapter c
    else mkLocalAdapter c
  else if st0 = "disk" then
    if c.disk_writable then
      { storage_type := .disk, base_url := c.base_url, s3_bucket := c.s3_bucket.getD "",
        disk_path := c.disk_path, local_path := c.local_path }
    else mkLocalAdapter c
  else mkLocalAdapter c

/-- Models `tempfile.gettempdir()`. -/
def tmpRoot : Path := ["tmp"]

/-- Models `StorageAdapter.document_exists`. -/
def document_exists (a : StorageAdapter) (w : World) (filename : String) : Bool :=
  match a.storage_type with
  | .s3 => (lk w.s3store filename).isSome
  | .disk => fsExists w.fs (osJoin a.disk_path filename)
  | .local => fsExists w.fs (osJoin a.local_path filename)

/-- Models `StorageAdapter.download_document`.  S3: `download_file` writes the
destination, a 404 becomes `FileNotFoundError`.  Disk: existence check on
the source then `shutil.copy2` to the destination (copying a directory
raises a non-`FileNotFoundError` error).  Local: existence check, then the
path *inside the storage directory itself* is returned — nothing is copied
to the destination. -/
def download_document (a : StorageAdapter) (w : World) (filename : String)
    (localPath : Option Path) : Except PyErr (Path × World) :=
  match a.storage_type with
  | .s3 =>
    let lp := localPath.getD (osJoin tmpRoot filename)
    match lk w.s3store filename with
    | some b => .ok (lp, { w with fs := w.fs.write lp b })
    | none => .error (.fileNotFound ("Document " ++ filename ++ " not found in S3"))
  | .disk =>
    let src := osJoin a.disk_path filename
    let lp := localPath.getD (osJoin tmpRoot filename)
    if fsExists w.fs src then
      match w.fs.fileContents src with
      | some b => .ok (lp, { w with fs := w.fs.write lp b })
      | none => .error (.other "IsADirectoryError")
    else .error (.fileNotFound ("Document " ++ filename ++ " not found"))
  | .local =>
    let fp := osJoin a.local_path filename
    if fsExists w.fs fp then .ok (fp, w)
    else .error (.fileNotFound ("Document " ++ filename ++ " not found"))

/-- Models `StorageAdapter.upload_document`.  Reads the source file and stores it
under `filename` in the active backend, returning the locator the Python
code builds (`BASE_URL` download URL when configured, else the raw
`s3://`-URL or destination path). -/
def upload_document (a : StorageAdapter) (w : World) (localPath : Path)
    (filename : String) : Except PyErr (String × World) :=
  match w.fs.fileContents localPath with
  | none => .error (.fileNotFound "upload source missing")
  | some b =>
    match a.storage_type with
    | .s3 =>
      let loc := if a.base_url ≠ "" then a.base_url ++ "/documents/" ++ filename
                 else "s3://" ++ a.s3_bucket ++ "/" ++ filename
      .ok (loc, { w with s3store := st w.s3store filename b })
    | .disk =>
      let dest := osJoin a.disk_path filename
      let loc := if a.base_url ≠ "" then a.base_url ++ "/documents/" ++ filename
                 else pathToString dest
      .ok (loc, { w with fs := w.fs.write dest b })
    | .local =>
      let dest := osJoin a.local_path filename
      let loc := if a.base_url ≠ "" then a.base_url ++ "/documents/" ++ filename
                 else pathToString dest
      .ok (loc, { w with fs := w.fs.write dest b })

/-- Models `StorageAdapter.delete_document`.  S3: `delete_object` succeeds whether
or not the key exists, so the code returns `True` unconditionally.
Disk/local: remove the file when `os.path.exists` reports it, returning
whether something was removed.  (`os.remove` on a directory would raise;
the theorems about this function restrict attention to plain-file
entries.) -/
def delete_document (a : StorageAdapter) (w : World) (filename : String) :
    Bool × World :=
  match a.storage_type with
  | .s3 => (true, { w with s3store := rm w.s3store filename })
  | .disk =>
    let p := osJoin a.disk_path filename
    if fsExists w.fs p then (true, { w with fs := w.fs.removeFile p }) else (false, w)
  | .local =>
    let p := osJoin a.local_path filename
    if fsExists w.fs p then (true, { w with fs := w.fs.removeFile p }) else (false, w)

/-! ## Document lifecycle manager (`document_manager.py`) -/

/-- The `DocumentManager` instance state: one private scratch directory
created by `tempfile.mkdtemp` at construction. -/
structure DocumentManager where
  temp_dir : Path
  deriving DecidableEq

/-- Models `DocumentManager.get_local_path`.  If the backend reports the document
present, download it to `temp_dir/filename` and return that path — note
the code ignores the path `download_document` returns, which for the
`local` backend is the storage path and differs from the returned scratch
path.  Otherwise, with `create_if_missing`, ensure the parent directory and
return the (unwritten) scratch path; else raise `FileNotFoundError`. -/
def get_local_path (m : DocumentManager) (a : StorageAdapter) (w : World)
    (filename : String) (create_if_missing : Bool) : Except PyErr (Path × World) :=
  if document_exists a w filename then
    let lp := osJoin m.temp_dir filename
    match download_document a w filename (some lp) with
    | .ok (_, w1) => .ok (lp, w1)
    | .error e => .error e
  else if create_if_missing then
    let lp := osJoin m.temp_dir filename
    .ok (lp, { w with fs := w.fs.makedirs (parentDir lp) })
  else .error (.fileNotFound ("Document " ++ filename ++ " not found"))

/-- Models `DocumentManager.save_document`: upload the scratch file to storage. -/
def save_document (m : DocumentManager) (a : StorageAdapter) (w : World)
    (localPath : Path) (filename : String) : Except PyErr (String × World) :=
  upload_document a w localPath filename

/-- Models `DocumentManager.cleanup_temp`.  With a truthy filename (Python's
`if filename:` — the empty string counts as absent!) remove that one
scratch file when present (`os.remove` raises on a directory); otherwise
remove the whole scratch directory tree when it exists (`shutil.rmtree`
raises when the path is not a directory). -/
def cleanup_temp (m : DocumentManager) (fs : FS) (filename : Option String) :
    Except String FS :=
  match filename with
  | some f =>
    if f ≠ "" then
      let p := osJoin m.temp_dir f
      if fs.isFile p then .ok (fs.removeFile p)
      else if fs.isDir p then .error "IsADirectoryError"
      else .ok fs
    else
      if fs.isDir m.temp_dir then .ok (fs.rmtree m.temp_dir)
      else if fs.isFile m.temp_dir then .error "NotADirectoryError"
      else .ok fs
  | none =>
    if fs.isDir m.temp_dir then .ok (fs.rmtree m.temp_dir)
    else if fs.isFile m.temp_dir then .error "NotADirectoryError"
    else .ok fs

/-! ## JSON values and JSON-RPC envelopes -/

/-- JSON values. -/
inductive JVal
  | null
  | jb (b : Bool)
  | jn (n : Int)
  | js (s : String)
  | jarr (xs : List JVal)
  | jobj (kvs : List (String × JVal))

/-- A JSON object, as its key-value list. -/
abbrev JObj := List (String × JVal)

/-- Models `dict.get` on a JSON object. -/
def jget (o : JObj) (k : String) : Option JVal := lk o k

/-- Rough `str()` of a JSON value, used only inside error message text. -/
def jvalShow : JVal → String
  | .null => "None"
  | .jb true => "True"
  | .jb false => "False"
  | .jn n => toString n
  | .js s => s
  | .jarr _ => "<list>"
  | .jobj _ => "<dict>"

/-- A JSON-RPC success envelope, exactly the dict the Python code builds. -/
def mkResult (rid : JVal) (v : JVal) : JVal :=
  .jobj [("jsonrpc", .js "2.0"), ("id", rid), ("result", v)]

/-- A JSON-RPC error envelope, exactly the dict the Python code builds. -/
def mkError (rid : JVal) (code : Int) (msg : String) : JVal :=
  .jobj [("jsonrpc", .js "2.0"), ("id", rid),
         ("error", .jobj [("code", .jn code), ("message", .js msg)])]

/-- Outcome of the `tools/call` machinery before the envelope is attached:
either a result payload or a JSON-RPC error code and message.  (The Python
code writes the full envelope inline at each return; the envelope fields
other than these are identical across the branches.) -/
inductive RpcOut
  | success (v : JVal)
  | rpcError (code : Int) (msg : String)

/-! ## The tool registry and dispatcher (`http_server.py`) -/

/-- The keys of `TOOL_REGISTRY` built by `build_tool_registry`. -/
def toolRegistry : List String :=
  ["create_document", "copy_document", "get_document_info", "get_document_text",
   "get_document_outline", "list_available_documents", "get_document_xml",
   "insert_header_near_text", "insert_line_or_paragraph_near_text",
   "insert_numbered_list_near_text", "add_paragraph", "add_heading", "add_picture",
   "add_table", "add_page_break", "delete_paragraph", "search_and_replace",
   "create_custom_style", "format_text", "format_table", "set_table_cell_shading",
   "apply_table_alternating_rows", "highlight_table_header", "merge_table_cells",
   "merge_table_cells_horizontal", "merge_table_cells_vertical",
   "set_table_cell_alignment", "set_table_alignment_all", "protect_document",
   "unprotect_document", "add_footnote_to_document", "add_footnote_after_text",
   "add_footnote_before_text", "add_footnote_enhanced", "add_endnote_to_document",
   "customize_footnote_style", "delete_footnote_from_document", "add_footnote_robust",
   "validate_document_footnotes", "delete_footnote_robust",
   "get_paragraph_text_from_document", "find_text_in_document", "convert_to_pdf",
   "get_all_comments", "get_comments_by_author", "get_comments_for_paragraph",
   "set_table_column_width", "set_table_column_widths", "set_table_width",
   "auto_fit_table_columns", "format_table_cell_text", "set_table_cell_padding",
   "replace_paragraph_block_below_header", "replace_block_between_manual_anchors",
   "set_template_from_file", "get_template_info", "clear_template",
   "set_default_font", "update_header_title_subtitle", "get_header_info"]

/-- The dispatcher's creation convention:
`'create' in tool_name or 'add' in tool_name`. -/
def isCreateLike (nm : String) : Bool :=
  listIsInfix "create".toList nm.toList || listIsInfix "add".toList nm.toList

/-- The dispatcher's collaborators: the shared storage adapter and document
manager, the externally visible `BASE_URL`, and the semantics of the
registered operations.  A tool takes its keyword arguments and the world,
and either returns its textual status (mutating the world) or raises (the
error also carries the mutated world, since Python side effects survive an
exception). -/
structure Env where
  adapter : StorageAdapter
  manager : DocumentManager
  baseUrl : String
  toolSem : String → JObj → World → Except (String × World) (String × World)

/-- The try/finally cleanup of `tools/call` (lines 346-349): when the
resolved scratch path exists, `cleanup_temp(os.path.basename(local_path))`;
an exception in the finally block replaces the in-flight outcome. -/
def finallyCleanup (env : Env) (w : World) (lp : Option Path) :
    Except (String × World) World :=
  match lp with
  | none => .ok w
  | some p =>
    if fsExists w.fs p then
      match cleanup_temp env.manager w.fs (some (lastComp p)) with
      | .ok fs1 => .ok { w with fs := fs1 }
      | .error msg => .error (msg, w)
    else .ok w

/-- Models `str.endswith`. -/
def strEndsWith (s suffix : String) : Bool := listIsSuffix suffix.toList s.toList

/-- URL-encoding of a document name.  Not modelled: every name the claims
exercise is its own encoding. -/
def urlQuote (s : String) : String := s

/-- The download URL the dispatcher appends to a result
(`BASE_URL or 'https://office-word-mcp.onrender.com'`). -/
def downloadUrl (env : Env) (fbx : String) : String :=
  (if env.baseUrl ≠ "" then env.baseUrl else "https://office-word-mcp.onrender.com")
    ++ "/documents/" ++ urlQuote fbx

/-- The post-invocation reverse sync of `tools/call` (lines 322-343): when
the resolved scratch path exists, normalize the original basename to carry
`.docx`, upload the scratch file under it and annotate the result text with
the saved name and a download URL.  (`original_filename` is always set
when `local_path` is; the dead re-extraction branch is omitted.) -/
def uploadPhase (env : Env) (w : World) (lp : Option Path) (fb : String)
    (res : String) : Except (String × World) (String × World) :=
  match lp with
  | none => .ok (res, w)
  | some p =>
    if fsExists w.fs p then
      let fbx := if fb ≠ "" && !(strEndsWith fb ".docx") then fb ++ ".docx" else fb
      if fbx ≠ "" then
        match save_document env.manager env.adapter w p fbx with
        | .ok (_, w1) =>
          .ok (res ++ "\n\nDocument saved: " ++ fbx ++ "\nDownload URL: "
                 ++ downloadUrl env fbx, w1)
        | .error e => .error (pyErrMsg e, w)
      else .ok (res, w)
    else .ok (res, w)

/-- Steps 3-5 of `tools/call`: invoke the tool inside the try/finally,
reverse-sync on success, clean up the scratch file in all cases, rethrow
tool or upload exceptions after the cleanup (a cleanup exception
replaces the in-flight one, as Python's `finally` does). -/
def invokePhase (env : Env) (w : World) (nm : String) (ao : JObj)
    (lp : Option Path) (fb : String) : Except (String × World) (RpcOut × World) :=
  match env.toolSem nm ao w with
  | .error (msg, w1) =>
    (match finallyCleanup env w1 lp with
     | .ok w2 => .error (msg, w2)
     | .error (cmsg, w2) => .error (cmsg, w2))
  | .ok (res, w1) =>
    match uploadPhase env w1 lp fb res with
    | .error (msg, w2) =>
      (match finallyCleanup env w2 lp with
       | .ok w3 => .error (msg, w3)
       | .error (cmsg, w3) => .error (cmsg, w3))
    | .ok (enhanced, w2) =>
      match finallyCleanup env w2 lp with
      | .ok w3 =>
        .ok (.success (.jobj [("content",
              .jarr [.jobj [("type", .js "text"), ("text", .js enhanced)]])]), w3)
      | .error (cmsg, w3) => .error (cmsg, w3)

/-- Step 2b of `tools/call` (lines 299-312): resolve `source_filename`
(fail-if-missing) — note a `FileNotFoundError` here returns `-32602`
directly, *without* running the cleanup that guards the invocation. -/
def sourcePhase (env : Env) (w : World) (nm : String) (ao : JObj)
    (lp : Option Path) (fb : String) : Except (String × World) (RpcOut × World) :=
  match lk ao "source_filename" with
  | none => invokePhase env w nm ao lp fb
  | some (JVal.js src) =>
    let sb := pythonBasename src
    match get_local_path env.manager env.adapter w sb false with
    | .ok (slp, w1) =>
      invokePhase env w1 nm (st ao "source_filename" (JVal.js (pathToString slp))) lp fb
    | .error (.fileNotFound _) =>
      .ok (.rpcError (-32602) ("Source document " ++ sb ++ " not found"), w)
    | .error (.other msg) => .error (msg, w)
  | some _ => .error ("TypeError: expected str for source_filename", w)

/-- Step 2a of `tools/call` (lines 275-297): resolve `filename` through the
lifecycle manager, with `create_if_missing` from the creation convention;
a missing document on a non-creating tool is `-32602`. -/
def filenamePhase (env : Env) (w : World) (nm : String) (ao : JObj) :
    Except (String × World) (RpcOut × World) :=
  match lk ao "filename" with
  | none => sourcePhase env w nm ao none ""
  | some (JVal.js orig) =>
    let fb := pythonBasename orig
    let cim := isCreateLike nm
    match get_local_path env.manager env.adapter w fb cim with
    | .ok (lp, w1) =>
      sourcePhase env w1 nm (st ao "filename" (JVal.js (pathToString lp))) (some lp) fb
    | .error (.fileNotFound _) =>
      if cim then
        match get_local_path env.manager env.adapter w fb true with
        | .ok (lp, w1) =>
          sourcePhase env w1 nm (st ao "filename" (JVal.js (pathToString lp))) (some lp) fb
        | .error e => .error (pyErrMsg e, w)
      else .ok (.rpcError (-32602) ("Document " ++ fb ++ " not found"), w)
    | .error (.other msg) => .error (msg, w)
  | some _ => .error ("TypeError: expected str for filename", w)

/-- The `tools/call` machinery (lines 251-362): registry check, document
resolution, invocation with reverse sync and cleanup.  A non-object
`arguments` value ultimately raises in Python (`'filename' in arguments`
or `tool_func(**arguments)`) and is modelled as an exception; a
non-hashable `name` raises in the registry membership test. -/
def toolsCall (env : Env) (w : World) (po : JObj) :
    Except (String × World) (RpcOut × World) :=
  match jget po "name" with
  | some (JVal.js nm) =>
    if toolRegistry.contains nm then
      match jget po "arguments" with
      | some (JVal.jobj ao) => filenamePhase env w nm ao
      | none => filenamePhase env w nm []
      | some _ => .error ("TypeError: arguments is not a mapping", w)
    else .ok (.rpcError (-32601) ("Tool not found: " ++ nm), w)
  | some (JVal.jarr _) => .error ("TypeError: unhashable type", w)
  | some (JVal.jobj _) => .error ("TypeError: unhashable type", w)
  | some v => .ok (.rpcError (-32601) ("Tool not found: " ++ jvalShow v), w)
  | none => .ok (.rpcError (-32601) "Tool not found: None", w)

/-- The fixed `initialize` result. -/
def initResultPayload : JVal :=
  .jobj [("protocolVersion", .js "2024-11-05"),
         ("capabilities", .jobj [("tools", .jobj [])]),
         ("serverInfo", .jobj [("name", .js "office-word-mcp-server"),
                               ("version", .js "1.0.0")])]

/-- The `tools/list` result: one entry per registered tool.  Docstring
extraction and parameter-schema inference are not modelled (no claim
depends on the entries' contents); each entry carries the tool's name and
placeholder description/schema fields. -/
def toolsListPayload : JVal :=
  .jobj [("tools", .jarr (toolRegistry.map (fun n =>
    .jobj [("name", .js n), ("description", .js ("Tool: " ++ n)),
           ("inputSchema", .jobj [("type", .js "object")])])))]

/-- Models `MCPHTTPHandler.handle_mcp_request` (lines 211-384).  Total: every
Python exception raised inside the method's `try` is modelled as an
`Except.error` of the inner machinery and converted here to a `-32603`
envelope, exactly as the top-level `except Exception` does.  The response
carries the request's `id` (JSON null when absent). -/
def handle_mcp_request (env : Env) (w : World) (req : JObj) : JVal × World :=
  let rid := (jget req "id").getD JVal.null
  match jget req "method" with
  | some (JVal.js "initialize") => (mkResult rid initResultPayload, w)
  | some (JVal.js "tools/list") => (mkResult rid toolsListPayload, w)
  | some (JVal.js "tools/call") =>
    (match jget req "params" with
     | some (JVal.jobj po) =>
       (match toolsCall env w po with
        | .ok (.success v, w1) => (mkResult rid v, w1)
        | .ok (.rpcError code msg, w1) => (mkError rid code msg, w1)
        | .error (msg, w1) => (mkError rid (-32603) msg, w1))
     | none =>
       (match toolsCall env w [] with
        | .ok (.success v, w1) => (mkResult rid v, w1)
        | .ok (.rpcError code msg, w1) => (mkError rid code msg, w1)
        | .error (msg, w1) => (mkError rid (-32603) msg, w1))
     | some _ => (mkError rid (-32603) "AttributeError: params has no get", w))
  | some m => (mkError rid (-32601) ("Method not found: " ++ jvalShow m), w)
  | none => (mkError rid (-32601) "Method not found: None", w)

/-! ## Document serving (`MCPHTTPHandler.serve_document`, lines 486-529) -/

/-- HTTP outcome of `GET /documents/{name}`. -/
inductive ServeOut
  | httpOk (content : Bytes)
  | notFound (msg : String)
  | httpError (msg : String)
  deriving DecidableEq

/-- Models `serve_document`: strip directory components from the (already
URL-decoded) name, check the backend, fetch through the lifecycle manager,
404 when the fetched path is missing on disk, stream the bytes and clean
the scratch copy.  (A cleanup failure after the bytes were written to the
wire is reported here as an error outcome; no claim exercises it.) -/
def serve_document (a : StorageAdapter) (m : DocumentManager) (w : World)
    (name : String) : ServeOut × World :=
  let filename := pythonBasename name
  if document_exists a w filename then
    match get_local_path m a w filename false with
    | .error (.fileNotFound msg) => (.notFound ("Document not found: " ++ msg), w)
    | .error (.other msg) => (.httpError ("Error serving document: " ++ msg), w)
    | .ok (lp, w1) =>
      if fsExists w1.fs lp then
        match w1.fs.fileContents lp with
        | some content =>
          (match cleanup_temp m w1.fs (some filename) with
           | .ok fs2 => (.httpOk content, { w1 with fs := fs2 })
           | .error msg => (.httpError ("Error serving document: " ++ msg), w1))
        | none => (.httpError "Error serving document: IsADirectoryError", w1)
      else (.notFound ("Document '" ++ filename ++ "' not found on disk"), w1)
  else (.notFound ("Document '" ++ filename ++ "' not found"), w)

/-! ## The modelled document engine (`create_document`) -/

/-- Modelled from the spec: `ensure_docx_extension` lives in
`word_document_server/utils/file_utils.py`, which is not under `src/`; the
spec's Document Reference is "normalized to carry the document-format's
required extension" and `create_document`'s docstring says "with or
without .docx extension", so the name gains ".docx" when it does not
already end with it. -/
def ensure_docx_extension (s : String) : String :=
  if strEndsWith s ".docx" then s else s ++ ".docx"

/-- Modelled from the spec: `check_file_writeable` also lives in
`word_document_server/utils/file_utils.py`, not under `src/`.  The spec
treats engine file I/O as "open path succeeds/fails"; a target is
writeable when the file already exists or its parent directory does. -/
def check_file_writeable (fs : FS) (p : Path) : Bool :=
  fs.isFile p || fs.isDir (parentDir p)

/-- The template location: `TEMPLATE_DIR` (default `/mnt/disk/documents`)
joined with `.template.docx` (`template_tools.py`). -/
def template_path : Path := ["mnt", "disk", "documents", ".template.docx"]

/-- Opaque stand-in for the bytes `Document.save` writes (the spec declares
the engine's format out of scope; only "saved bytes exist at path
afterward" matters). -/
def docBytes : Bytes := [80, 75, 3, 4]

/-- Models `document_tools.create_document`: normalize the name to carry `.docx`,
check writability, copy the template when present and requested, save the
document at the *normalized* path, and return a success string; every
internal failure is caught and returned as a failure string (the function
never raises).  Header-placeholder substitution alters only the opaque
saved bytes and is not modelled separately. -/
def createDocumentSem (args : JObj) (w : World) :
    Except (String × World) (String × World) :=
  match lk args "filename" with
  | some (JVal.js fnStr) =>
    let fn := ensure_docx_extension fnStr
    let p := stringToPath fn
    if check_file_writeable w.fs p then
      let useTemplate := match lk args "use_template" with
        | some (JVal.jb b) => b
        | _ => true
      let tmpl := useTemplate && w.fs.isFile template_path
      let note := if tmpl then " (using template)" else ""
      .ok ("Document " ++ fn ++ " created successfully" ++ note,
           { w with fs := w.fs.write p docBytes })
    else .ok ("Cannot create document: path not writeable", w)
  | _ => .error ("TypeError: create_document missing filename", w)

/-- The registered operations' semantics used for concrete runs:
`create_document` as modelled above; the remaining operations are external
document-engine collaborators (out of the spec's scope) and answer with a
fixed status string, mutating nothing. -/
def modelToolSem (nm : String) (args : JObj) (w : World) :
    Except (String × World) (String × World) :=
  if nm = "create_document" then createDocumentSem args w
  else .ok ("Tool executed", w)

/-! ## Response discriminators and concrete fixtures -/

/-- Is the response a JSON-RPC success envelope? -/
def isSuccessResp (v : JVal) : Bool :=
  match v with
  | .jobj o => (jget o "result").isSome && (jget o "error").isNone
  | _ => false

/-- Is the response a JSON-RPC error envelope with the given code? -/
def isErrorRespWith (v : JVal) (c : Int) : Bool :=
  match v with
  | .jobj o =>
    (match jget o "error" with
     | some (.jobj eo) =>
       (match jget eo "code" with
        | some (.jn n) => n == c
        | _ => false) && (jget o "result").isNone
     | _ => false)
  | _ => false

/-- The world carried by either outcome of the dispatch machinery
(Python side effects survive both return and raise). -/
def exceptWorld : Except (String × World) (RpcOut × World) → World
  | .ok (_, w) => w
  | .error (_, w) => w

/-- A Render-disk adapter at the default mount point. -/
def diskAdapter : StorageAdapter :=
  { storage_type := .disk, base_url := "", s3_bucket := "",
    disk_path := ["mnt", "disk", "documents"], local_path := ["documents"] }

/-- A local-filesystem adapter at the default documents directory. -/
def localAdapter : StorageAdapter :=
  { storage_type := .local, base_url := "", s3_bucket := "",
    disk_path := ["mnt", "disk", "documents"], local_path := ["documents"] }

/-- An S3 adapter. -/
def s3Adapter : StorageAdapter :=
  { storage_type := .s3, base_url := "", s3_bucket := "bucket",
    disk_path := ["mnt", "disk", "documents"], local_path := ["documents"] }

/-- The manager with its `mkdtemp` scratch directory. -/
def mgr0 : DocumentManager := { temp_dir := ["tmp", "scratch"] }

/-- Fresh filesystem: scratch and storage directories exist, no files. -/
def fs0 : FS :=
  { files := [], dirs := [["tmp", "scratch"], ["mnt", "disk", "documents"], ["documents"]] }

/-- Fresh world. -/
def w0 : World := { s3store := [], fs := fs0 }

/-- Disk-backed environment with the modelled tool semantics. -/
def env0 : Env :=
  { adapter := diskAdapter, manager := mgr0, baseUrl := "", toolSem := modelToolSem }

/-- The C1 scenario request: a creation call whose document name lacks the
`.docx` extension. -/
def c1Request : JObj :=
  [("jsonrpc", .js "2.0"), ("id", .jn 1), ("method", .js "tools/call"),
   ("params", .jobj [("name", .js "create_document"),
                     ("arguments", .jobj [("filename", .js "report")])])]

/-- World with one stored document in the local backend's directory. -/
def w2c : World :=
  { s3store := [],
    fs := { files := [(["documents", "existing.docx"], [1, 2, 3])],
            dirs := [["tmp", "scratch"], ["documents"]] } }

/-- World with one stored document in the disk backend's directory. -/
def w4c : World :=
  { s3store := [],
    fs := { files := [(["mnt", "disk", "documents", "a.docx"], [7])],
            dirs := [["tmp", "scratch"], ["mnt", "disk", "documents"]] } }

/-- A call on an existing primary document with a missing source
document. -/
def c4Request : JObj :=
  [("id", .jn 2), ("method", .js "tools/call"),
   ("params", .jobj [("name", .js "format_text"),
                     ("arguments", .jobj [("filename", .js "a.docx"),
                                          ("source_filename", .js "missing.docx")])])]

/-- Config with `STORAGE_TYPE=s3`, a missing access key while the disk mount is
perfectly writable. -/
def cfgS3MissingCreds : Config :=
  { storage_type_env := some "s3", base_url := "", s3_bucket := some "b",
    s3_access_key := none, s3_secret_key := some "k", s3_reachable := true,
    disk_path := ["mnt", "disk", "documents"], disk_writable := true,
    local_path := ["documents"] }

/-- Config with `STORAGE_TYPE=s3`, full credentials but an unreachable bucket. -/
def cfgS3Unreachable : Config :=
  { storage_type_env := some "s3", base_url := "", s3_bucket := some "b",
    s3_access_key := some "a", s3_secret_key := some "k", s3_reachable := false,
    disk_path := ["mnt", "disk", "documents"], disk_writable := true,
    local_path := ["documents"] }

/-- Scratch directory holding one scratch file. -/
def fs9 : FS :=
  { files := [(["tmp", "scratch", "a.docx"], [1])], dirs := [["tmp", "scratch"]] }

/-! ## Association-list and filesystem lemmas -/

theorem lk_st_self {κ α : Type} [BEq κ] [LawfulBEq κ] (m : List (κ × α)) (k : κ)
    (v : α) : lk (st m k v) k = some v := by
  simp [lk, st]

theorem lk_filter_none {κ α : Type} [BEq κ] [LawfulBEq κ] (f : κ × α → Bool)
    (m : List (κ × α)) (k : κ) (h : ∀ v, f (k, v) = false) :
    lk (m.filter f) k = none := by
  induction m with
  | nil => simp [lk]
  | cons hd tl ih =>
    by_cases hf : f hd = true
    · rw [List.filter_cons_of_pos hf]
      have hk : (hd.1 == k) = false := by
        rcases hd with ⟨k1, v1⟩
        by_cases he : k1 = k
        · subst he; rw [h v1] at hf; exact absurd hf (by simp)
        · simp [he]
      simp [lk, hk, ih]
    · rw [List.filter_cons_of_neg hf]
      exact ih

theorem lk_rm_self {κ α : Type} [BEq κ] [LawfulBEq κ] (m : List (κ × α)) (k : κ) :
    lk (rm m k) k = none := by
  refine lk_filter_none _ m k (fun v => ?_)
  simp

theorem isPrefixOf_self {α : Type} [BEq α] [LawfulBEq α] (l : List α) :
    l.isPrefixOf l = true := by
  induction l with
  | nil => rfl
  | cons hd tl ih => simp [List.isPrefixOf, ih]

theorem isPrefixOf_append_right {α : Type} [BEq α] [LawfulBEq α] (l t : List α) :
    l.isPrefixOf (l ++ t) = true := by
  induction l with
  | nil => cases t <;> rfl
  | cons hd tl ih => simp [List.isPrefixOf, ih]

theorem contains_filter_false {α : Type} [BEq α] [LawfulBEq α] (f : α → Bool)
    (l : List α) (a : α) (h : f a = false) : (l.filter f).contains a = false := by
  induction l with
  | nil => rfl
  | cons hd tl ih =>
    by_cases hf : f hd = true
    · rw [List.filter_cons_of_pos hf]
      have hba : (a == hd) = false := by
        by_cases he : a = hd
        · subst he; rw [h] at hf; exact absurd hf (by simp)
        · simp [he]
      simp only [List.contains_cons, hba, Bool.false_or]
      exact ih
    · rw [List.filter_cons_of_neg hf]
      exact ih

theorem fileContents_write_self (fs : FS) (p : Path) (b : Bytes) :
    (fs.write p b).fileContents p = some b :=
  lk_st_self fs.files p b

theorem isFile_write_self (fs : FS) (p : Path) (b : Bytes) :
    (fs.write p b).isFile p = true := by
  simp [FS.isFile, fileContents_write_self]

theorem fsExists_write_self (fs : FS) (p : Path) (b : Bytes) :
    fsExists (fs.write p b) p = true := by
  simp [fsExists, isFile_write_self]

theorem isFile_removeFile_self (fs : FS) (p : Path) :
    (fs.removeFile p).isFile p = false := by
  simp [FS.isFile, FS.removeFile, FS.fileContents, lk_rm_self]

theorem isFile_rmtree_under (fs : FS) (d p : Path) (h : d.isPrefixOf p = true) :
    (fs.rmtree d).isFile p = false := by
  have : lk ((fs.rmtree d).files) p = none := by
    refine lk_filter_none _ fs.files p (fun v => ?_)
    simp [h]
  simp [FS.isFile, FS.fileContents, this]

theorem isDir_rmtree_under (fs : FS) (d p : Path) (h : d.isPrefixOf p = true) :
    (fs.rmtree d).isDir p = false := by
  refine contains_filter_false _ fs.dirs p ?_
  simp [h]

theorem getLastD_append_single {α : Type} (l : List α) (a d : α) :
    (l ++ [a]).getLastD d = a := by
  induction l with
  | nil => rfl
  | cons hd tl ih =>
    cases tl with
    | nil => rfl
    | cons h2 t2 => simpa using ih

theorem lastComp_osJoin (d : Path) (f : String) : lastComp (osJoin d f) = f :=
  getLastD_append_single d f ""

/-! ## Claim C3: backend fallback chain -/

/-- Claim C3, counterexample.  The claim says a failed preferred backend
falls to the *next* backend in the chain object store → mounted volume →
local filesystem.  With `STORAGE_TYPE=s3`, credentials incomplete and the
disk mount perfectly writable, `_init_s3` jumps straight to
`_init_local`: the mounted-volume backend is skipped even though it would
have initialized. -/
theorem c3_chain_counterexample :
    s3CredsPresent cfgS3MissingCreds = false
    ∧ cfgS3MissingCreds.disk_writable = true
    ∧ (init_adapter cfgS3MissingCreds).storage_type = StorageType.local
    ∧ (init_adapter cfgS3MissingCreds).storage_type ≠ StorageType.disk := by
  refine ⟨rfl, rfl, rfl, ?_⟩
  decide

/-- Claim C3, amended: selection starts at the configured backend
(`s3` → object store, `disk` → mounted volume, anything else → local); a
failed S3 initialization (missing credentials or failed probe) falls back
*directly to the local filesystem*, skipping the mounted volume; a
permission failure on the mount falls back to local; the terminal local
backend never fails to initialize. -/
theorem c3_fallback_semantics (c : Config) :
    (strToLower (c.storage_type_env.getD "disk") = "s3" →
      ((s3CredsPresent c && c.s3_reachable) = true →
        (init_adapter c).storage_type = StorageType.s3)
      ∧ ((s3CredsPresent c && c.s3_reachable) = false →
        (init_adapter c).storage_type = StorageType.local))
    ∧ (strToLower (c.storage_type_env.getD "disk") = "disk" →
      (c.disk_writable = true → (init_adapter c).storage_type = StorageType.disk)
      ∧ (c.disk_writable = false → (init_adapter c).storage_type = StorageType.local))
    ∧ (strToLower (c.storage_type_env.getD "disk") ≠ "s3" →
      strToLower (c.storage_type_env.getD "disk") ≠ "disk" →
      (init_adapter c).storage_type = StorageType.local) := by
  unfold init_adapter mkLocalAdapter
  refine ⟨fun h1 => ⟨fun h2 => ?_, fun h2 => ?_⟩,
          fun h1 => ⟨fun h2 => ?_, fun h2 => ?_⟩, fun h1 h2 => ?_⟩
  · rcases Bool.and_eq_true_iff.mp h2 with ⟨ha, hb⟩
    simp [h1, ha, hb]
  · cases ha : s3CredsPresent c
    · simp [h1, ha]
    · cases hb : c.s3_reachable
      · simp [h1, ha, hb]
      · rw [ha, hb] at h2
        exact absurd h2 (by simp)
  · simp [h1, h2]
  · simp [h1, h2]
  · simp [h1, h2]

/-- Claim C3, witness: with reachable-probe failure the adapter lands on
the local backend. -/
theorem c3_fallback_witness :
    (init_adapter cfgS3Unreachable).storage_type = StorageType.local :=
  ((c3_fallback_semantics cfgS3Unreachable).1 (by decide)).2 (by decide)

/-! ## Claim C6: delete semantics -/

/-- Claim C6, counterexample.  On the S3 backend, deleting a document that
does not exist still returns `True` (`delete_object` succeeds for a
missing key), refуting "returns false when the document does not
exist" for every backend variant. -/
theorem c6_s3_delete_counterexample :
    document_exists s3Adapter w0 "x" = false
    ∧ (delete_document s3Adapter w0 "x").1 = true := by
  exact ⟨rfl, rfl⟩

/-- Claim C6, amended: for the disk and local variants (on entries that
are plain files, not directories) `delete` returns `false` when the
document is absent, and on an existing document returns `true` with
`exists` false afterwards; the S3 variant's `delete` returns `true`
unconditionally — whether or not the document existed — with `exists`
false afterwards. -/
theorem c6_delete_semantics (a : StorageAdapter) (w : World) (n : String) :
    (a.storage_type = StorageType.s3 →
      (delete_document a w n).1 = true
      ∧ document_exists a (delete_document a w n).2 n = false)
    ∧ (a.storage_type = StorageType.disk →
      w.fs.isDir (osJoin a.disk_path n) = false →
      (fsExists w.fs (osJoin a.disk_path n) = false → delete_document a w n = (false, w))
      ∧ (w.fs.isFile (osJoin a.disk_path n) = true →
        (delete_document a w n).1 = true
        ∧ document_exists a (delete_document a w n).2 n = false))
    ∧ (a.storage_type = StorageType.local →
      w.fs.isDir (osJoin a.local_path n) = false →
      (fsExists w.fs (osJoin a.local_path n) = false → delete_document a w n = (false, w))
      ∧ (w.fs.isFile (osJoin a.local_path n) = true →
        (delete_document a w n).1 = true
        ∧ document_exists a (delete_document a w n).2 n = false)) := by
  refine ⟨fun hs => ?_, fun hs hd => ⟨fun he => ?_, fun hf => ?_⟩,
          fun hs hd => ⟨fun he => ?_, fun hf => ?_⟩⟩
  · constructor
    · simp [delete_document, hs]
    · simp [delete_document, document_exists, hs, lk_rm_self]
  · simp [delete_document, hs, he]
  · have hex : fsExists w.fs (osJoin a.disk_path n) = true := by
      simp [fsExists, hf]
    have hdel : delete_document a w n
        = (true, { w with fs := w.fs.removeFile (osJoin a.disk_path n) }) := by
      simp [delete_document, hs, hex]
    rw [hdel]
    refine ⟨rfl, ?_⟩
    simp only [document_exists, hs, fsExists, isFile_removeFile_self,
      Bool.false_or]
    simpa [FS.isDir, FS.removeFile] using hd
  · simp [delete_document, hs, he]
  · have hex : fsExists w.fs (osJoin a.local_path n) = true := by
      simp [fsExists, hf]
    have hdel : delete_document a w n
        = (true, { w with fs := w.fs.removeFile (osJoin a.local_path n) }) := by
      simp [delete_document, hs, hex]
    rw [hdel]
    refine ⟨rfl, ?_⟩
    simp only [document_exists, hs, fsExists, isFile_removeFile_self,
      Bool.false_or]
    simpa [FS.isDir, FS.removeFile] using hd

/-- Claim C6, witness: concrete delete of an existing disk document and of
a missing one. -/
theorem c6_delete_witness :
    (delete_document diskAdapter w4c "a.docx").1 = true
    ∧ document_exists diskAdapter (delete_document diskAdapter w4c "a.docx").2 "a.docx"
        = false
    ∧ delete_document diskAdapter w0 "a.docx" = (false, w0) := by
  refine ⟨?_, ?_, ?_⟩
  · exact (((c6_delete_semantics diskAdapter w4c "a.docx").2.1 rfl (by decide)).2
      (by decide)).1
  · exact (((c6_delete_semantics diskAdapter w4c "a.docx").2.1 rfl (by decide)).2
      (by decide)).2
  · exact ((c6_delete_semantics diskAdapter w0 "a.docx").2.1 rfl (by decide)).1
      (by decide)

/-! ## Claim C7: put/fetch round trip -/

/-- Claim C7: for every backend variant, uploading a source file and then
downloading the document yields a path whose contents are byte-identical
to the source's bytes at upload time. -/
theorem c7_round_trip (a : StorageAdapter) (w : World) (src dest : Path)
    (n : String) (b : Bytes) (hsrc : w.fs.fileContents src = some b)
    (hn : plainName n = true) :
    ∃ loc w1, upload_document a w src n = .ok (loc, w1)
      ∧ ∃ rp w2, download_document a w1 n (some dest) = .ok (rp, w2)
        ∧ w2.fs.fileContents rp = some b := by
  cases ht : a.storage_type
  · simp only [upload_document, hsrc, ht]
    refine ⟨_, _, rfl, ?_⟩
    simp only [download_document, ht, lk_st_self]
    exact ⟨_, _, rfl, fileContents_write_self _ _ _⟩
  · simp only [upload_document, hsrc, ht]
    refine ⟨_, _, rfl, ?_⟩
    simp only [download_document, ht, fsExists_write_self, fileContents_write_self,
      if_true]
    exact ⟨_, _, rfl, fileContents_write_self _ _ _⟩
  · simp only [upload_document, hsrc, ht]
    refine ⟨_, _, rfl, ?_⟩
    simp only [download_document, ht, fsExists_write_self, if_true]
    exact ⟨_, _, rfl, fileContents_write_self _ _ _⟩

/-- Claim C7, witness: round trip through the disk backend at a concrete
world. -/
theorem c7_round_trip_witness :
    w4c.fs.fileContents (["mnt", "disk", "documents", "a.docx"]) = some [7]
    ∧ ∃ loc w1, upload_document diskAdapter w4c (["mnt", "disk", "documents", "a.docx"])
          "copy.docx" = .ok (loc, w1)
      ∧ ∃ rp w2, download_document diskAdapter w1 "copy.docx"
            (some (["tmp", "scratch", "copy.docx"])) = .ok (rp, w2)
        ∧ w2.fs.fileContents rp = some [7] :=
  ⟨by decide, c7_round_trip diskAdapter w4c _ _ "copy.docx" [7] (by decide) (by decide)⟩

/-! ## Claim C1: the extensionless-creation scenario -/

/-- Claim C1, code-bug evaluation.  `tools/call` of `create_document` with
filename `"report"` resolves the scratch path `<scratch>/report`, but the
tool normalizes its argument and saves `<scratch>/report.docx`; the
dispatcher's `os.path.exists(local_path)` guard therefore skips both the
reverse sync and the cleanup.  After a *successful* response: the backend
does not contain `report.docx`, `GET /documents/report.docx` answers 404,
and the scratch directory still holds `report.docx` — the opposite of each
conjunct of the claim.  (The dispatcher's own dead `.docx`-normalization
before upload, and `create_document`'s docstring "with or without .docx
extension", show storing `report.docx` was the intent.) -/
theorem c1_extensionless_create_eval :
    isSuccessResp (handle_mcp_request env0 w0 c1Request).1 = true
    ∧ document_exists diskAdapter (handle_mcp_request env0 w0 c1Request).2
        "report.docx" = false
    ∧ (serve_document diskAdapter mgr0 (handle_mcp_request env0 w0 c1Request).2
        "report.docx").1 = ServeOut.notFound "Document 'report.docx' not found"
    ∧ (handle_mcp_request env0 w0 c1Request).2.fs.isFile
        (["tmp", "scratch", "report.docx"]) = true := by
  exact ⟨by decide, by decide, by decide, by decide⟩

/-! ## Claim C2: resolve through the lifecycle manager -/

/-- Claim C2, code-bug evaluation.  Parts of the claim that hold: with
`create_if_missing = False` a missing document raises `FileNotFoundError`;
with `True` the returned scratch path is unwritten with its parent
directory present; on the *disk* backend an existing document's bytes are
fetched to the returned scratch path.  The failing part: on the *local*
backend, `download_document` returns the storage path without copying,
`get_local_path` discards that return value and hands back an unwritten
scratch path, so the returned path's contents are not the stored bytes —
the file does not even exist (and `GET /documents/existing.docx` on this
backend consequently 404s). -/
theorem c2_local_resolve_eval :
    get_local_path mgr0 localAdapter w2c "missing.docx" false
      = .error (.fileNotFound "Document missing.docx not found")
    ∧ (match get_local_path mgr0 localAdapter w2c "missing.docx" true with
       | .ok (p, w1) => decide (p = ["tmp", "scratch", "missing.docx"]
           ∧ w1.fs.isFile p = false ∧ w1.fs.isDir (parentDir p) = true)
       | .error _ => false) = true
    ∧ (match get_local_path mgr0 diskAdapter w4c "a.docx" false with
       | .ok (p, w1) => decide (p = ["tmp", "scratch", "a.docx"]
           ∧ w1.fs.fileContents p = some [7])
       | .error _ => false) = true
    ∧ document_exists localAdapter w2c "existing.docx" = true
    ∧ get_local_path mgr0 localAdapter w2c "existing.docx" false
      = .ok (["tmp", "scratch", "existing.docx"], w2c)
    ∧ w2c.fs.fileContents (["tmp", "scratch", "existing.docx"]) = none
    ∧ (serve_document localAdapter mgr0 w2c "existing.docx").1
      = ServeOut.notFound "Document 'existing.docx' not found on disk" := by
  exact ⟨rfl, by decide, by decide, rfl, rfl, rfl, rfl⟩

/-! ## Claim C8: basename-only path handling -/

theorem mem_takeWhile_pred {α : Type} (p : α → Bool) :
    ∀ (l : List α) (a : α), a ∈ l.takeWhile p → p a = true := by
  intro l
  induction l with
  | nil => intro a h; cases h
  | cons hd tl ih =>
    intro a h
    by_cases hp : p hd = true
    · rw [List.takeWhile_cons_of_pos hp] at h
      rcases List.mem_cons.mp h with he | ht
      · subst he; exact hp
      · exact ih a ht
    · rw [List.takeWhile_cons_of_neg hp] at h
      cases h

/-- Fact: `os.path.basename` never yields a string containing a separator. -/
theorem basename_noSlash (s : String) : noSlash (pythonBasename s) = true := by
  rw [noSlash, pythonBasename]
  refine List.all_eq_true.mpr (fun c hc => ?_)
  have hc' : c ∈ (s.toList.reverse.takeWhile (fun c => !(c == '/'))) :=
    List.mem_reverse.mp hc
  exact mem_takeWhile_pred _ _ c hc'

theorem normAux_append (d : Path) (hd : ∀ x ∈ d, cleanComp x = true) :
    ∀ (acc r : Path), normAux acc (d ++ r) = normAux (d.reverse ++ acc) r := by
  induction d with
  | nil => intro acc r; simp
  | cons c rest ih =>
    intro acc r
    have hc := hd c (List.mem_cons_self c rest)
    have h1 : ¬ (c = "" ∨ c = ".") := by
      simp only [cleanComp, Bool.and_eq_true, Bool.not_eq_true', beq_eq_false_iff_ne,
        ne_eq] at hc
      rintro (h | h) <;> [exact hc.1.1 h; exact hc.1.2 h]
    have h2 : ¬ c = ".." := by
      simp only [cleanComp, Bool.and_eq_true, Bool.not_eq_true', beq_eq_false_iff_ne,
        ne_eq] at hc
      exact hc.2
    have hrest : ∀ x ∈ rest, cleanComp x = true :=
      fun x hx => hd x (List.mem_cons_of_mem c hx)
    show normAux acc (c :: (rest ++ r)) = _
    rw [normAux, if_neg h1, if_neg h2, ih hrest (c :: acc) r]
    simp

/-- A path of ordinary components normalizes to itself. -/
theorem normalize_clean (d : Path) (hd : ∀ x ∈ d, cleanComp x = true) :
    normalize d = d := by
  have := normAux_append d hd [] []
  simp only [List.append_nil] at this
  rw [normalize, this]
  simp [normAux]

/-- Claim C8, counterexample.  The name `"secret/.."` — whose basename is
`".."` — makes the server probe `<storage>/..`, a path *outside* the
designated storage directory: stripping to the basename does not keep
every untrusted input inside the storage and scratch locations. -/
theorem c8_traversal_counterexample :
    pythonBasename "secret/.." = ".."
    ∧ normalize (osJoin ["documents"] (pythonBasename "secret/..")) = []
    ∧ (["documents"] : Path).isPrefixOf
        (normalize (osJoin ["documents"] (pythonBasename "secret/.."))) = false := by
  exact ⟨rfl, rfl, by decide⟩

/-- Claim C8, amended: every document name received over the public
interface is stripped to its basename before any filesystem or backend
access (the basename contains no separator), and for every input whose
basename is not the special component `".."` the accessed path
`dir/basename` normalizes to a path at or strictly below the designated
directory.  The single escaping basename `".."` can address only the
designated directory's own parent, never a file outside it. -/
theorem c8_basename_containment (d : Path) (raw : String)
    (hd : ∀ x ∈ d, cleanComp x = true) (hb : pythonBasename raw ≠ "..") :
    noSlash (pythonBasename raw) = true
    ∧ d.isPrefixOf (normalize (osJoin d (pythonBasename raw))) = true := by
  refine ⟨basename_noSlash raw, ?_⟩
  have hstep : normalize (osJoin d (pythonBasename raw))
      = normAux d.reverse [pythonBasename raw] := by
    rw [normalize, osJoin, normAux_append d hd [] [pythonBasename raw]]
    simp
  by_cases hskip : pythonBasename raw = "" ∨ pythonBasename raw = "."
  · rw [hstep, normAux, if_pos hskip]
    simp only [normAux, List.reverse_reverse]
    exact isPrefixOf_self d
  · rw [hstep, normAux, if_neg hskip, if_neg hb]
    simp only [normAux, List.reverse_cons, List.reverse_reverse]
    exact isPrefixOf_append_right d _

/-- Claim C8, witness: a name with directory components is reduced to its
slash-free basename and stays inside the storage directory. -/
theorem c8_basename_containment_witness :
    noSlash (pythonBasename "../../etc/passwd") = true
    ∧ (["documents"] : Path).isPrefixOf
        (normalize (osJoin ["documents"] (pythonBasename "../../etc/passwd"))) = true :=
  c8_basename_containment ["documents"] "../../etc/passwd" (by decide) (by decide)

/-! ## Claim C9: cleanup idempotence -/

/-- Claim C9, counterexample.  `cleanup_temp` with the *empty-string* name
does not remove "that one scratch file only": Python's `if filename:`
treats `""` like an absent argument, so the whole scratch tree — including
the unrelated file `a.docx` — is removed. -/
theorem c9_empty_name_counterexample :
    fs9.isFile (["tmp", "scratch", "a.docx"]) = true
    ∧ cleanup_temp mgr0 fs9 (some "")
      = .ok (fs9.rmtree (["tmp", "scratch"]))
    ∧ (fs9.rmtree (["tmp", "scratch"])).isFile (["tmp", "scratch", "a.docx"]) = false := by
  exact ⟨rfl, rfl, rfl⟩

/-- Claim C9, amended: for nonempty names, `cleanup(name)` removes exactly
that scratch file when present and is an error-free no-op when absent;
`cleanup()` with no argument — and, by Python truthiness, `cleanup("")` —
removes the entire scratch tree when the scratch directory exists and is
an error-free no-op otherwise; running the no-argument form twice is a
no-op the second time (idempotent). -/
theorem c9_cleanup_semantics (m : DocumentManager) (fs : FS) (f : String) :
    cleanup_temp m fs (some "") = cleanup_temp m fs none
    ∧ (f ≠ "" → fs.isFile (osJoin m.temp_dir f) = true →
        cleanup_temp m fs (some f) = .ok (fs.removeFile (osJoin m.temp_dir f))
        ∧ (fs.removeFile (osJoin m.temp_dir f)).isFile (osJoin m.temp_dir f) = false)
    ∧ (f ≠ "" → fsExists fs (osJoin m.temp_dir f) = false →
        cleanup_temp m fs (some f) = .ok fs)
    ∧ (fs.isDir m.temp_dir = true →
        cleanup_temp m fs none = .ok (fs.rmtree m.temp_dir)
        ∧ ∀ q : Path, m.temp_dir.isPrefixOf q = true →
            (fs.rmtree m.temp_dir).isFile q = false)
    ∧ (fsExists fs m.temp_dir = false → cleanup_temp m fs none = .ok fs)
    ∧ (∀ fs', cleanup_temp m fs none = .ok fs' → cleanup_temp m fs' none = .ok fs') := by
  refine ⟨?_, fun hf hex => ?_, fun hf hex => ?_, fun hdir => ?_, fun hex => ?_,
          fun fs' h => ?_⟩
  · simp [cleanup_temp]
  · exact ⟨by simp [cleanup_temp, hf, hex], isFile_removeFile_self _ _⟩
  · have h1 : fs.isFile (osJoin m.temp_dir f) = false := by
      cases hx : fs.isFile (osJoin m.temp_dir f)
      · rfl
      · rw [fsExists, hx] at hex; exact absurd hex (by simp)
    have h2 : fs.isDir (osJoin m.temp_dir f) = false := by
      cases hx : fs.isDir (osJoin m.temp_dir f)
      · rfl
      · rw [fsExists, hx] at hex; exact absurd hex (by simp)
    simp [cleanup_temp, hf, h1, h2]
  · exact ⟨by simp [cleanup_temp, hdir],
      fun q hq => isFile_rmtree_under fs m.temp_dir q hq⟩
  · have h1 : fs.isFile m.temp_dir = false := by
      cases hx : fs.isFile m.temp_dir
      · rfl
      · rw [fsExists, hx] at hex; exact absurd hex (by simp)
    have h2 : fs.isDir m.temp_dir = false := by
      cases hx : fs.isDir m.temp_dir
      · rfl
      · rw [fsExists, hx] at hex; exact absurd hex (by simp)
    simp [cleanup_temp, h1, h2]
  · cases hdir : fs.isDir m.temp_dir
    · cases hfile : fs.isFile m.temp_dir
      · have : fs' = fs := by
          rw [cleanup_temp] at h
          rw [hdir, hfile] at h
          simp at h
          exact h.symm
        subst this
        simp [cleanup_temp, hdir, hfile]
      · rw [cleanup_temp] at h
        rw [hdir, hfile] at h
        simp at h
    · have hfs' : fs' = fs.rmtree m.temp_dir := by
        rw [cleanup_temp] at h
        rw [hdir] at h
        simp at h
        exact h.symm
      subst hfs'
      have hd2 : (fs.rmtree m.temp_dir).isDir m.temp_dir = false :=
        isDir_rmtree_under fs m.temp_dir m.temp_dir (isPrefixOf_self _)
      have hf2 : (fs.rmtree m.temp_dir).isFile m.temp_dir = false :=
        isFile_rmtree_under fs m.temp_dir m.temp_dir (isPrefixOf_self _)
      simp [cleanup_temp, hd2, hf2]

/-- Claim C9, witness: concrete removal of one scratch file, no-op on a
missing one, full-tree removal, and idempotence of the second call. -/
theorem c9_cleanup_witness :
    cleanup_temp mgr0 fs9 (some "a.docx")
      = .ok (fs9.removeFile (["tmp", "scratch", "a.docx"]))
    ∧ cleanup_temp mgr0 fs9 (some "other.docx") = .ok fs9
    ∧ cleanup_temp mgr0 fs9 none = .ok (fs9.rmtree (["tmp", "scratch"]))
    ∧ cleanup_temp mgr0 (fs9.rmtree (["tmp", "scratch"])) none
      = .ok (fs9.rmtree (["tmp", "scratch"])) := by
  refine ⟨?_, ?_, ?_, ?_⟩
  · exact ((c9_cleanup_semantics mgr0 fs9 "a.docx").2.1 (by decide) (by decide)).1
  · exact (c9_cleanup_semantics mgr0 fs9 "other.docx").2.2.1 (by decide) (by decide)
  · exact ((c9_cleanup_semantics mgr0 fs9 "x").2.2.2.1 (by decide)).1
  · exact (c9_cleanup_semantics mgr0 fs9 "x").2.2.2.2.2 _
      (((c9_cleanup_semantics mgr0 fs9 "x").2.2.2.1 (by decide)).1)

/-! ## Claim C4: unconditional scratch cleanup -/

theorem lk_filter_keep {κ α : Type} [BEq κ] [LawfulBEq κ] (m : List (κ × α))
    (k k' : κ) (h : ¬ k = k') :
    lk (m.filter (fun p => !(p.1 == k))) k' = lk m k' := by
  induction m with
  | nil => rfl
  | cons hd tl ih =>
    rcases hd with ⟨k1, v1⟩
    by_cases he : k1 = k <;> by_cases he' : k1 = k'
    · exact absurd (he.symm.trans he') h
    · have h1 : (k1 == k) = true := by simp [he]
      have h2 : (k1 == k') = false := by simp [he']
      simp [List.filter_cons, lk, h1, h2, ih]
    · have h1 : (k1 == k) = false := by simp [he]
      have h2 : (k1 == k') = true := by simp [he']
      simp [List.filter_cons, lk, h1, h2, ih]
    · have h1 : (k1 == k) = false := by simp [he]
      have h2 : (k1 == k') = false := by simp [he']
      simp [List.filter_cons, lk, h1, h2, ih]

theorem lk_st_diff {κ α : Type} [BEq κ] [LawfulBEq κ] (m : List (κ × α))
    (k k' : κ) (v : α) (h : ¬ k = k') : lk (st m k v) k' = lk m k' := by
  rw [st, lk]
  rw [if_neg (by simpa using h)]
  exact lk_filter_keep m k k' h

theorem get_local_path_ok_path (m : DocumentManager) (a : StorageAdapter)
    (w : World) (f : String) (c : Bool) (p : Path) (w1 : World)
    (h : get_local_path m a w f c = .ok (p, w1)) : p = osJoin m.temp_dir f := by
  simp only [get_local_path] at h
  split at h
  · split at h
    · simp only [Except.ok.injEq, Prod.mk.injEq] at h
      exact h.1.symm
    · cases h
  · split at h
    · simp only [Except.ok.injEq, Prod.mk.injEq] at h
      exact h.1.symm
    · cases h

theorem cleanup_ok_not_isFile (m : DocumentManager) (fs : FS) (f : String)
    (fs' : FS) (hf : f ≠ "") (h : cleanup_temp m fs (some f) = .ok fs') :
    fs'.isFile (osJoin m.temp_dir f) = false := by
  rw [cleanup_temp, if_pos hf] at h
  by_cases h1 : fs.isFile (osJoin m.temp_dir f) = true
  · rw [if_pos h1] at h
    simp only [Except.ok.injEq] at h
    rw [← h]
    exact isFile_removeFile_self _ _
  · rw [if_neg h1] at h
    split at h
    · cases h
    · simp only [Except.ok.injEq] at h
      rw [← h]
      cases hx : fs.isFile (osJoin m.temp_dir f)
      · rfl
      · exact absurd hx h1

theorem cleanup_error_not_isFile (m : DocumentManager) (fs : FS) (f : String)
    (msg : String) (hf : f ≠ "") (h : cleanup_temp m fs (some f) = .error msg) :
    fs.isFile (osJoin m.temp_dir f) = false := by
  rw [cleanup_temp, if_pos hf] at h
  by_cases h1 : fs.isFile (osJoin m.temp_dir f) = true
  · rw [if_pos h1] at h
    cases h
  · rw [if_neg h1] at h
    cases hx : fs.isFile (osJoin m.temp_dir f)
    · rfl
    · exact absurd hx h1

/-- World reached by the try/finally cleanup, on both its outcomes. -/
def cleanupWorld : Except (String × World) World → World
  | .ok w => w
  | .error (_, w) => w

theorem finallyCleanup_clean (env : Env) (w : World) (f : String) (hf : f ≠ "") :
    (cleanupWorld (finallyCleanup env w (some (osJoin env.manager.temp_dir f)))).fs.isFile
      (osJoin env.manager.temp_dir f) = false := by
  rw [finallyCleanup, lastComp_osJoin]
  by_cases hex : fsExists w.fs (osJoin env.manager.temp_dir f) = true
  · rw [if_pos hex]
    cases hcl : cleanup_temp env.manager w.fs (some f) with
    | ok fs1 =>
      simpa [cleanupWorld] using cleanup_ok_not_isFile env.manager w.fs f fs1 hf hcl
    | error msg =>
      simpa [cleanupWorld] using
        cleanup_error_not_isFile env.manager w.fs f msg hf hcl
  · rw [if_neg hex]
    simp only [cleanupWorld]
    cases hx : w.fs.isFile (osJoin env.manager.temp_dir f)
    · rfl
    · exact absurd (by rw [fsExists, hx]; rfl) hex

theorem invokePhase_clean (env : Env) (w : World) (nm : String) (ao : JObj)
    (f : String) (hf : f ≠ "") :
    (exceptWorld (invokePhase env w nm ao (some (osJoin env.manager.temp_dir f)) f)).fs.isFile
      (osJoin env.manager.temp_dir f) = false := by
  rw [invokePhase]
  cases hts : env.toolSem nm ao w with
  | error p1 =>
    rcases p1 with ⟨msg, w1⟩
    dsimp only
    have hcl := finallyCleanup_clean env w1 f hf
    cases hfc : finallyCleanup env w1 (some (osJoin env.manager.temp_dir f)) with
    | ok w2 =>
      rw [hfc] at hcl
      simpa [exceptWorld, cleanupWorld] using hcl
    | error p2 =>
      rcases p2 with ⟨cmsg, w2⟩
      rw [hfc] at hcl
      simpa [exceptWorld, cleanupWorld] using hcl
  | ok p1 =>
    rcases p1 with ⟨res, w1⟩
    dsimp only
    cases hup : uploadPhase env w1 (some (osJoin env.manager.temp_dir f)) f res with
    | error p2 =>
      rcases p2 with ⟨msg, w2⟩
      dsimp only
      have hcl := finallyCleanup_clean env w2 f hf
      cases hfc : finallyCleanup env w2 (some (osJoin env.manager.temp_dir f)) with
      | ok w3 =>
        rw [hfc] at hcl
        simpa [exceptWorld, cleanupWorld] using hcl
      | error p3 =>
        rcases p3 with ⟨cmsg, w3⟩
        rw [hfc] at hcl
        simpa [exceptWorld, cleanupWorld] using hcl
    | ok p2 =>
      rcases p2 with ⟨enhanced, w2⟩
      dsimp only
      have hcl := finallyCleanup_clean env w2 f hf
      cases hfc : finallyCleanup env w2 (some (osJoin env.manager.temp_dir f)) with
      | ok w3 =>
        rw [hfc] at hcl
        simpa [exceptWorld, cleanupWorld] using hcl
      | error p3 =>
        rcases p3 with ⟨cmsg, w3⟩
        rw [hfc] at hcl
        simpa [exceptWorld, cleanupWorld] using hcl

/-- Claim C4, counterexample.  A `tools/call` whose arguments include an
existing primary document and a *missing* `source_filename`: the primary
document is fetched into the scratch directory, the source resolution
fails, and the dispatcher returns the `-32602` error *before* the
try/finally — the primary scratch file `a.docx` is left behind. -/
theorem c4_source_leak_counterexample :
    isErrorRespWith (handle_mcp_request env0 w4c c4Request).1 (-32602) = true
    ∧ (handle_mcp_request env0 w4c c4Request).2.fs.isFile
        (["tmp", "scratch", "a.docx"]) = true := by
  exact ⟨by decide, by decide⟩

/-- Claim C4, amended: for every `tools/call` whose arguments include a
primary document name with a nonempty basename, *provided the resolution
of `source_filename` (when present) succeeds*, the file at the resolved
primary scratch path is absent when the dispatcher returns — after
successful invocation, operation-level failure, unexpected tool exception,
and even a failed reverse sync.  (When `source_filename` resolution fails,
the dispatcher returns `-32602` without deleting the primary scratch
file.) -/
theorem c4_cleanup_on_invocation
    (env : Env) (w : World) (po : JObj) (nm orig : String) (ao : JObj)
    (lp : Path) (w1 : World)
    (hname : jget po "name" = some (JVal.js nm))
    (hreg : toolRegistry.contains nm = true)
    (hargs : jget po "arguments" = some (JVal.jobj ao))
    (hfn : lk ao "filename" = some (JVal.js orig))
    (hfb : pythonBasename orig ≠ "")
    (hres : get_local_path env.manager env.adapter w (pythonBasename orig)
        (isCreateLike nm) = .ok (lp, w1))
    (hsrc : ∀ v, lk ao "source_filename" = some v →
      ∃ s p2 w2, v = JVal.js s
        ∧ get_local_path env.manager env.adapter w1 (pythonBasename s) false
            = .ok (p2, w2)) :
    (exceptWorld (toolsCall env w po)).fs.isFile
      (osJoin env.manager.temp_dir (pythonBasename orig)) = false := by
  have hlp : lp = osJoin env.manager.temp_dir (pythonBasename orig) :=
    get_local_path_ok_path _ _ _ _ _ _ _ hres
  subst hlp
  rw [toolsCall, hname]
  dsimp only
  rw [hreg]
  simp only [if_true]
  rw [hargs]
  dsimp only
  rw [filenamePhase, hfn]
  dsimp only
  rw [hres]
  dsimp only
  rw [sourcePhase]
  have hsk : lk (st ao "filename"
      (JVal.js (pathToString (osJoin env.manager.temp_dir (pythonBasename orig)))))
      "source_filename" = lk ao "source_filename" :=
    lk_st_diff _ _ _ _ (by decide)
  rw [hsk]
  cases hv : lk ao "source_filename" with
  | none =>
    dsimp only
    exact invokePhase_clean env w1 nm _ (pythonBasename orig) hfb
  | some v =>
    obtain ⟨s, p2, w2, rfl, hok⟩ := hsrc v hv
    dsimp only
    rw [hok]
    dsimp only
    exact invokePhase_clean env w2 nm _ (pythonBasename orig) hfb

/-- Claim C4, witness: a single-document call on an existing document;
the scratch copy is gone in the dispatcher's final world. -/
theorem c4_cleanup_witness :
    (exceptWorld (toolsCall env0 w4c
      [("name", JVal.js "add_paragraph"),
       ("arguments", JVal.jobj [("filename", JVal.js "a.docx")])])).fs.isFile
      (["tmp", "scratch", "a.docx"]) = false := by
  exact c4_cleanup_on_invocation env0 w4c
    [("name", JVal.js "add_paragraph"),
     ("arguments", JVal.jobj [("filename", JVal.js "a.docx")])]
    "add_paragraph" "a.docx" [("filename", JVal.js "a.docx")] _ _
    rfl (by decide) rfl rfl (by decide) rfl
    (fun v hv => Option.noConfusion hv)

/-! ## Claim C5: JSON-RPC error-code mapping -/

theorem get_local_path_absent (m : DocumentManager) (a : StorageAdapter)
    (w : World) (f : String) (h : document_exists a w f = false) :
    get_local_path m a w f false
      = .error (.fileNotFound ("Document " ++ f ++ " not found")) := by
  rw [get_local_path]
  simp [h]

/-- Fact: `handle_mcp_request` forwards a `tools/call` to the dispatch machinery
and wraps the outcome in the JSON-RPC envelope, `-32603` for an
exception. -/
theorem handle_toolsCall_wrap (env : Env) (w : World) (req po : JObj)
    (hm : jget req "method" = some (JVal.js "tools/call"))
    (hp : jget req "params" = some (JVal.jobj po)) :
    handle_mcp_request env w req
      = match toolsCall env w po with
        | .ok (.success v, w1) => (mkResult ((jget req "id").getD JVal.null) v, w1)
        | .ok (.rpcError c msg, w1) =>
          (mkError ((jget req "id").getD JVal.null) c msg, w1)
        | .error (msg, w1) =>
          (mkError ((jget req "id").getD JVal.null) (-32603) msg, w1) := by
  rw [handle_mcp_request, hm, hp]
  rfl

/-- Claim C5: the dispatcher's error-code mapping.  An unregistered
operation name yields `-32601`; a non-creating operation naming a document
absent from the backend yields `-32602` naming the missing file; and any
exception raised during dispatch is caught at the top level and reported
as `-32603` carrying the exception's message (the handler is a total
function — no exception escapes as a transport fault). -/
theorem c5_error_code_mapping :
    (∀ (env : Env) (w : World) (req po : JObj) (nm : String),
      jget req "method" = some (JVal.js "tools/call") →
      jget req "params" = some (JVal.jobj po) →
      jget po "name" = some (JVal.js nm) →
      toolRegistry.contains nm = false →
      handle_mcp_request env w req
        = (mkError ((jget req "id").getD JVal.null) (-32601)
            ("Tool not found: " ++ nm), w))
    ∧ (∀ (env : Env) (w : World) (req po : JObj) (nm : String) (ao : JObj)
        (orig : String),
      jget req "method" = some (JVal.js "tools/call") →
      jget req "params" = some (JVal.jobj po) →
      jget po "name" = some (JVal.js nm) →
      toolRegistry.contains nm = true →
      isCreateLike nm = false →
      jget po "arguments" = some (JVal.jobj ao) →
      lk ao "filename" = some (JVal.js orig) →
      document_exists env.adapter w (pythonBasename orig) = false →
      handle_mcp_request env w req
        = (mkError ((jget req "id").getD JVal.null) (-32602)
            ("Document " ++ pythonBasename orig ++ " not found"), w))
    ∧ (∀ (env : Env) (w : World) (req po : JObj) (msg : String) (w1 : World),
      jget req "method" = some (JVal.js "tools/call") →
      jget req "params" = some (JVal.jobj po) →
      toolsCall env w po = .error (msg, w1) →
      handle_mcp_request env w req
        = (mkError ((jget req "id").getD JVal.null) (-32603) msg, w1)) := by
  refine ⟨?_, ?_, ?_⟩
  · intro env w req po nm hm hp hname hreg
    rw [handle_toolsCall_wrap env w req po hm hp]
    rw [toolsCall, hname]
    dsimp only
    simp only [hreg, Bool.false_eq_true, if_false]
  · intro env w req po nm ao orig hm hp hname hreg hcim hargs hfn habs
    rw [handle_toolsCall_wrap env w req po hm hp]
    rw [toolsCall, hname]
    dsimp only
    simp only [hreg, if_true]
    rw [hargs]
    dsimp only
    rw [filenamePhase, hfn]
    dsimp only
    rw [hcim, get_local_path_absent env.manager env.adapter w (pythonBasename orig) habs]
    dsimp only
    simp only [Bool.false_eq_true, if_false]
  · intro env w req po msg w1 hm hp htc
    rw [handle_toolsCall_wrap env w req po hm hp]
    rw [htc]

/-- Claim C5, witness: the three mappings at concrete requests. -/
theorem c5_error_code_witness :
    handle_mcp_request env0 w0
      [("id", JVal.jn 3), ("method", JVal.js "tools/call"),
       ("params", JVal.jobj [("name", JVal.js "does_not_exist")])]
      = (mkError (JVal.jn 3) (-32601) "Tool not found: does_not_exist", w0)
    ∧ handle_mcp_request env0 w0
      [("id", JVal.jn 4), ("method", JVal.js "tools/call"),
       ("params", JVal.jobj [("name", JVal.js "format_text"),
         ("arguments", JVal.jobj [("filename", JVal.js "nope.docx")])])]
      = (mkError (JVal.jn 4) (-32602) "Document nope.docx not found", w0)
    ∧ handle_mcp_request env0 w0
      [("id", JVal.jn 5), ("method", JVal.js "tools/call"),
       ("params", JVal.jobj [("name", JVal.js "format_text"),
         ("arguments", JVal.js "oops")])]
      = (mkError (JVal.jn 5) (-32603) "TypeError: arguments is not a mapping", w0) := by
  refine ⟨?_, ?_, ?_⟩
  · exact c5_error_code_mapping.1 env0 w0 _ _ "does_not_exist" rfl rfl rfl (by decide)
  · exact c5_error_code_mapping.2.1 env0 w0 _ _ "format_text" _ "nope.docx"
      rfl rfl rfl (by decide) (by decide) rfl rfl (by decide)
  · exact c5_error_code_mapping.2.2 env0 w0 _ _
      "TypeError: arguments is not a mapping" w0 rfl rfl rfl

/-! ## Claim C10: response envelope shape -/

/-- A well-formed JSON-RPC response for `req`: an object carrying
`jsonrpc = "2.0"`, the request's `id` (null when absent), and exactly one
of `result` and `error`. -/
def goodResp (req : JObj) (v : JVal) : Prop :=
  ∃ o, v = JVal.jobj o
    ∧ jget o "jsonrpc" = some (JVal.js "2.0")
    ∧ jget o "id" = some ((jget req "id").getD JVal.null)
    ∧ (((jget o "result").isSome = true ∧ jget o "error" = none)
       ∨ ((jget o "error").isSome = true ∧ jget o "result" = none))

theorem goodResp_mkResult (req : JObj) (v : JVal) :
    goodResp req (mkResult ((jget req "id").getD JVal.null) v) :=
  ⟨_, rfl, rfl, rfl, Or.inl ⟨rfl, rfl⟩⟩

theorem goodResp_mkError (req : JObj) (c : Int) (msg : String) :
    goodResp req (mkError ((jget req "id").getD JVal.null) c msg) :=
  ⟨_, rfl, rfl, rfl, Or.inr ⟨rfl, rfl⟩⟩

/-- Claim C10: for every JSON-RPC request object, every world and every
tool semantics, `handle_mcp_request` returns (it is a total function — the
top-level exception handler converts every modelled exception into an
envelope) a response whose `jsonrpc` field is `"2.0"`, whose `id` equals
the request's `id` (null when absent), and which carries exactly one of
`result` and `error`. -/
theorem c10_envelope_shape (env : Env) (w : World) (req : JObj) :
    goodResp req (handle_mcp_request env w req).1 := by
  simp only [handle_mcp_request]
  split
  · exact goodResp_mkResult req _
  · exact goodResp_mkResult req _
  · split
    · split
      · exact goodResp_mkResult req _
      · exact goodResp_mkError req _ _
      · exact goodResp_mkError req _ _
    · split
      · exact goodResp_mkResult req _
      · exact goodResp_mkError req _ _
      · exact goodResp_mkError req _ _
    · exact goodResp_mkError req _ _
  · exact goodResp_mkError req _ _
  · exact goodResp_mkError req _ _

/-- Claim C10, witness: envelope shape at a concrete unknown-method
request. -/
theorem c10_envelope_witness :
    goodResp [("id", JVal.js "abc"), ("method", JVal.js "nonsense")]
      (handle_mcp_request env0 w0
        [("id", JVal.js "abc"), ("method", JVal.js "nonsense")]).1 :=
  c10_envelope_shape env0 w0 [("id", JVal.js "abc"), ("method", JVal.js "nonsense")]

end WordMcp
